import Mathlib

/-!
Verification of the `AliMuonAccEffSubmitter` grid-submission helper
(`PWG/muondep/AliMuonAccEffSubmitter.cxx`) against its natural-language
specification.

The C++ class is shallowly embedded: `TString` values become `String`,
`Int_t` becomes `ℤ`, `Double_t` arithmetic on exactly representable values
becomes `ℚ`, the external grid/filesystem world becomes an explicit `Env`
record of query responses, and observable side effects (file removal, shell
commands, grid commands) become an explicit `Effect` trace.  Loops that the
C++ source runs without a bound are given an explicit fuel argument; fuel
exhaustion is reported as `none` and models divergence of the original.
-/

/-! ## String utilities mirroring the `TString` operations used by the source -/

/-- Check whether `pat` occurs as a contiguous substring of `l`
(`TString::Contains`). An empty pattern is found everywhere, matching
`TString::Index("") = 0`. -/
def containsList (pat : List Char) : List Char → Bool
  | [] => pat.isEmpty
  | c :: rest => pat.isPrefixOf (c :: rest) || containsList pat rest

/-- `TString::Contains` on `String`s. -/
def containsStr (s pat : String) : Bool :=
  containsList pat.data s.data

/-- `TString::BeginsWith` on `String`s. -/
def beginsWith (s pat : String) : Bool :=
  pat.data.isPrefixOf s.data

/-- One left-to-right non-overlapping replacement pass over a character
list: every occurrence of `p :: ps` is replaced by `repl`
(`TString::ReplaceAll`, inner worker for a non-empty pattern). -/
def replaceAllGo (p : Char) (ps repl : List Char) : List Char → List Char
  | [] => []
  | c :: rest =>
    if (p :: ps).isPrefixOf (c :: rest) then
      repl ++ replaceAllGo p ps repl (List.drop ps.length rest)
    else
      c :: replaceAllGo p ps repl rest
termination_by l => l.length
decreasing_by
  · simp only [List.length_drop, List.length_cons]
    omega
  · simp only [List.length_cons]
    omega

/-- `TString::ReplaceAll` on character lists; an empty pattern is a no-op. -/
def replaceAllList (pat repl s : List Char) : List Char :=
  match pat with
  | [] => s
  | p :: ps => replaceAllGo p ps repl s

/-- `TString::ReplaceAll` on `String`s. -/
def replaceAllStr (s pat repl : String) : String :=
  String.mk (replaceAllList pat.data repl.data s.data)

/-- Remove every trailing occurrence of character `c`
(`TString::Strip(kTrailing, c)`). -/
def stripTrailing (s : String) (c : Char) : String :=
  String.mk ((s.data.reverse.dropWhile (fun x => x = c)).reverse)

/-- The part of `l` after its last `'/'` (the whole list when there is no
slash). -/
def afterLastSlash (l : List Char) : List Char :=
  (l.reverse.takeWhile (fun c => c ≠ '/')).reverse

/-- `TSystem::BaseName`: `"/"` maps to itself, otherwise everything after
the last slash (the whole name when there is no slash). -/
def baseName (s : String) : String :=
  if s = "/" then s else String.mk (afterLastSlash s.data)

/-- `TSystem::DirName`: everything before the last slash; a path whose only
slash is leading keeps `"/"`.  The source returns the process working
directory for a slash-free name; the embedding stands in `"."` for it. -/
def dirName (s : String) : String :=
  if s.data.contains '/' then
    let rev := s.data.reverse.dropWhile (fun c => c ≠ '/')
    if rev.reverse = ['/'] then "/" else String.mk rev.reverse.dropLast
  else "."

/-- The whitespace class of C `isspace`, used by `TString::IsDigit` and
`atoi`. -/
def isSpaceChar (c : Char) : Bool :=
  c = ' ' || c = '\t' || c = '\n' || c = '\x0b' || c = '\x0c' || c = '\r'

/-- `TString::IsDigit`: true when the string is non-empty and every
character is a decimal digit or a whitespace character (the ROOT
implementation explicitly documents that "123 456" is accepted). -/
def isDigitTS (s : String) : Bool :=
  !s.data.isEmpty && s.data.all (fun c => c.isDigit || isSpaceChar c)

/-- Fold a digit list into a natural number, most significant digit
first. -/
def digitsToNat (l : List Char) : ℕ :=
  l.foldl (fun acc c => 10 * acc + (c.toNat - '0'.toNat)) 0

/-- C `atoi` on a character list: skip leading whitespace, read an
optional sign, then the longest run of digits (zero digits give 0). -/
def atoiCList (l : List Char) : ℤ :=
  match l.dropWhile (fun c => isSpaceChar c) with
  | [] => 0
  | c :: more =>
    if c = '-' then -(digitsToNat (more.takeWhile (fun x => x.isDigit)) : ℤ)
    else if c = '+' then (digitsToNat (more.takeWhile (fun x => x.isDigit)) : ℤ)
    else (digitsToNat ((c :: more).takeWhile (fun x => x.isDigit)) : ℤ)

/-- `TString::Atoi`: when the string contains a `' '` (found via
`Index(" ")`), the segments between spaces are concatenated — i.e. every
space character is removed — and C `atoi` is applied to the result;
otherwise `atoi` is applied directly.  ROOT documents `"123456"`,
`"123 456"` and `"12 3 456"` as all being valid integer strings whose
`Atoi()` value is `123456`. -/
def atoiTS (s : String) : ℤ :=
  if s.data.contains ' ' then atoiCList (s.data.filter (fun c => !(c = ' ')))
  else atoiCList s.data

/-- `TString::IsDec`: non-empty and all characters are decimal digits. -/
def isDec (s : String) : Bool :=
  !s.data.isEmpty && s.data.all (fun c => c.isDigit)

/-! ## Kernel-computable rational arithmetic

The `Double_t` arithmetic of the source is modelled over `ℚ`; every value
the claims exercise is exactly representable.  Mathlib's `Rat.add` and
`Rat.mul` are `@[irreducible]`, so computable clones built on `mkRat` are
used inside definitions, with bridge lemmas to `+` and `*` for proofs. -/

/-- Computable rational addition (same normalized fraction as `q + r`). -/
def qAdd (a b : ℚ) : ℚ :=
  mkRat (a.num * (b.den : ℤ) + b.num * (a.den : ℤ)) (a.den * b.den)

/-- Computable rational multiplication (same normalized fraction as
`q * r`). -/
def qMul (a b : ℚ) : ℚ :=
  mkRat (a.num * b.num) (a.den * b.den)

/-- Computable rational subtraction. -/
def qSub (a b : ℚ) : ℚ :=
  mkRat (a.num * (b.den : ℤ) - b.num * (a.den : ℤ)) (a.den * b.den)

/-- Computable rational negation. -/
def qNeg (a : ℚ) : ℚ :=
  mkRat (-a.num) a.den

/-- The constant `0.5` of the source, in computable form. -/
def half : ℚ := mkRat 1 2

theorem qAdd_eq (a b : ℚ) : qAdd a b = a + b := by
  rw [Rat.add_def, Rat.normalize_eq_mkRat, qAdd]

theorem qMul_eq (a b : ℚ) : qMul a b = a * b := by
  rw [Rat.mul_def, Rat.normalize_eq_mkRat, qMul]

theorem qSub_eq (a b : ℚ) : qSub a b = a - b := by
  rw [Rat.sub_def, Rat.normalize_eq_mkRat, qSub]

theorem half_eq : half = (1 : ℚ) / 2 := by
  rw [half, Rat.mkRat_eq_div]
  norm_num

/-- `TMath::Nint` (banker's rounding), translated from the ROOT source:
for `x ≥ 0` take `i = int(x + 0.5)` and subtract one when `i` is odd and
`x + 0.5` landed exactly on `i`; symmetrically for `x < 0` with `int`
truncating toward zero. -/
def nint (x : ℚ) : ℤ :=
  if 0 ≤ x then
    let i := (qAdd x half).floor
    if i % 2 ≠ 0 ∧ qAdd x half = (i : ℚ) then i - 1 else i
  else
    let i := -((qNeg (qSub x half)).floor)
    if i % 2 ≠ 0 ∧ qSub x half = (i : ℚ) then i + 1 else i

/-! ## Chunk planning (`AliMuonAccEffSubmitter::Submit`, lines 1513-1520)

```
Int_t nChunk = 1;
while (nEvtRun/nChunk+0.5 > MaxEventsPerChunk()) { ++nChunk; }
Int_t nEvtChunk = TMath::Nint(nEvtRun/nChunk + 0.5);
```
`nEvtRun/nChunk` is `Int_t` division (truncation toward zero, `Int.tdiv`),
then promoted to `Double_t` for the `+0.5` comparison. -/

/-- The loop guard `nEvtRun/nChunk + 0.5 > MaxEventsPerChunk()`. -/
def chunkCond (nEvtRun nChunk maxPerChunk : ℤ) : Bool :=
  Rat.blt (maxPerChunk : ℚ) (qAdd ((Int.tdiv nEvtRun nChunk : ℤ) : ℚ) half)

/-- The `while` loop of the source with explicit fuel; on fuel exhaustion
the current counter is returned (the C++ loop never terminates when
`maxPerChunk ≤ 0`, and the stated fuel is shown sufficient whenever
`maxPerChunk > 0`). -/
def nChunkLoop (nEvtRun maxPerChunk : ℤ) : ℕ → ℤ → ℤ
  | 0, nChunk => nChunk
  | fuel + 1, nChunk =>
    if chunkCond nEvtRun nChunk maxPerChunk then
      nChunkLoop nEvtRun maxPerChunk fuel (nChunk + 1)
    else nChunk

/-- The chunk count computed by `Submit` for one run. -/
def computeNChunk (nEvtRun maxPerChunk : ℤ) : ℤ :=
  nChunkLoop nEvtRun maxPerChunk (nEvtRun.toNat + 2) 1

/-- The per-chunk event count `TMath::Nint(nEvtRun/nChunk + 0.5)`. -/
def computeNEvtChunk (nEvtRun nChunk : ℤ) : ℤ :=
  nint (qAdd ((Int.tdiv nEvtRun nChunk : ℤ) : ℚ) half)

theorem chunkCond_true_iff (e k m : ℤ) :
    chunkCond e k m = true ↔ m ≤ Int.tdiv e k := by
  have hb : chunkCond e k m = true ↔
      (m : ℚ) < qAdd ((Int.tdiv e k : ℤ) : ℚ) half := Iff.rfl
  rw [hb, qAdd_eq, half_eq]
  constructor
  · intro h
    by_contra hc
    push_neg at hc
    have h1 : Int.tdiv e k + 1 ≤ m := by omega
    have h2 : ((Int.tdiv e k : ℤ) : ℚ) + 1 ≤ (m : ℚ) := by exact_mod_cast h1
    linarith
  · intro h
    have h2 : ((m : ℤ) : ℚ) ≤ ((Int.tdiv e k : ℤ) : ℚ) := by exact_mod_cast h
    linarith

/-! ## Observable effects and the external world -/

/-- Observable side effects of the submitter: local file removal, shell
commands, local template copies, grid directory changes, grid mkdir, grid
file copies, grid job-queue commands, local file (re)writes. -/
inductive Effect where
  | unlink (path : String)
  | exec (cmd : String)
  | localCopy (src dst : String)
  | gridCd (dir : String)
  | gridMkdir (dir : String)
  | gridRm (path : String)
  | fileCp (src dst : String)
  | gridCommand (query : String)
  | writeFile (path : String)
  deriving DecidableEq

/-- One entry of a `TGridResult` listing: a `TMap` from field names to
string values (`"name"` is the field the submitter reads). -/
def GridEntry := List (String × String)

/-- `TMap::GetValue("name")` followed by `GetName()` on the stored
`TObjString`. -/
def entryName (e : GridEntry) : Option String :=
  (e.find? (fun p => p.1 = "name")).map (fun p => p.2)

/-- Responses of the external world (grid middleware, local filesystem,
trigger-scaler database, interactive user).  Each field fixes the outcome
of one kind of external call the submitter makes. -/
structure Env where
  /-- whether a grid connection (`gGrid`) is available -/
  hasGrid : Bool
  /-- `gGrid->Ls(path, "-F")` (directory-existence listings);
  `none` models a null `TGridResult` -/
  gridLsF : String → Option (List GridEntry)
  /-- `gGrid->Ls(lfn)` (file-existence listings) -/
  gridLs : String → Option (List GridEntry)
  /-- local file existence (negation of `gSystem->AccessPathName`) -/
  localExists : String → Bool
  /-- local snapshot existence after `aliroot ... --snapshot` ran -/
  localExistsAfter : String → Bool
  /-- return code of `gSystem->CopyFile(src, dst, overwrite)`; `0` =
  success -/
  copyFileCode : String → String → ℤ
  /-- result of `gGrid->Mkdir(dir, "-p")` -/
  mkdirOk : String → Bool
  /-- result of `TFile::Cp(local, "alien://" ++ remote)` -/
  cpOk : String → String → Bool
  /-- whether the `std::ofstream` for a JDL file is bad after opening -/
  streamBad : String → Bool
  /-- lines of a local file (template-substitution input) -/
  fileLines : String → List String
  /-- `gGrid->Command(query)`: `none` models a null `TGridResult`, `some
  jid` a result whose `GetKey(0, "jobId")` is `jid` -/
  command : String → Option String
  /-- per-run L2A scaler count of the reference trigger; `none` models
  `GetTriggerScaler` returning null -/
  triggerValue : ℤ → Option ℤ
  /-- per-run `grep -c /event` count of files collected for merging -/
  nFilesFor : ℤ → ℤ
  /-- merge stage indices `k` with a `Stage_k/` directory in a run's
  output directory -/
  stagesFor : ℤ → List ℕ
  /-- interactive answer typed when `Merge` prompts for a run -/
  userInput : ℤ → String

/-- The mutable data of an `AliMuonAccEffSubmitter` object that the
verified operations read or write (names follow the C++ fields). -/
structure Submitter where
  fIsValid : Bool
  fRemoteDir : String
  fLocalDir : String
  fTemplateDir : String
  fSnapshotDir : String
  fMergedDir : String
  fRatioVal : ℚ
  fFixedNofEvents : ℤ
  fMaxEventsPerChunk : ℤ
  fCompactMode : ℤ
  fShouldOverwriteFiles : Bool
  fUseOCDBSnapshots : Bool
  fUseAODMerging : Bool
  /-- `fScalers`: `none` models a null pointer, `some runs` the run list -/
  fScalers : Option (List ℤ)
  /-- the `fVars` map as an association list in iteration order -/
  fVars : List (String × String)
  fTemplateFileList : List String
  fLocalFileList : List String

/-- Modelled from the header (not under `src/`): `RunJDLName()`; its exact
value is immaterial to every claim, only its use as a fixed file name. -/
def runJDLName : String := "JDL"

/-- Modelled from the header (not under `src/`): `MergeJDLName(final)`.
The doc comment of `Merge` gives the format `AOD_merge(_final).jdl`. -/
def mergeJDLName (final : Bool) : String :=
  if final then "AOD_merge_final.jdl" else "AOD_merge.jdl"

/-! ## Remote existence checks (lines 1064-1112) -/

/-- The entry scan of `RemoteDirectoryExists`: walk the listing, stop at
the first entry with no `name` field, succeed on the first entry whose
name equals `dir`. -/
def scanForName (dir : String) : List GridEntry → Bool
  | [] => false
  | e :: rest =>
    match entryName e with
    | none => false
    | some n => if dir = n then true else scanForName dir rest

/-- `AliMuonAccEffSubmitter::RemoteDirectoryExists`. -/
def remoteDirectoryExists (env : Env) (dirname : String) : Bool :=
  if !env.hasGrid then false
  else
    let dirstripped := stripTrailing (stripTrailing dirname ' ') '/'
    let dir := baseName dirstripped ++ "/"
    let path := dirName dirstripped
    match env.gridLsF path with
    | none => false
    | some entries => scanForName dir entries

/-- `AliMuonAccEffSubmitter::RemoteFileExists`: null result, empty
listing, a first entry without a `name` field, or an empty name give
false; any non-empty name on the FIRST entry gives true (the name is never
compared with the queried path). -/
def remoteFileExists (env : Env) (lfn : String) : Bool :=
  if !env.hasGrid then false
  else
    match env.gridLs lfn with
    | none => false
    | some entries =>
      match entries.head? with
      | none => false
      | some e =>
        match entryName e with
        | none => false
        | some n => !(n = "")

/-! ## Variable substitution (`ReplaceVars`, lines 1115-1171)

The inner `while (sline.Contains("VAR_") && !sline.BeginsWith("//"))` loop
re-tests an UNCHANGED line when no key of `fVars` occurs in it, so it
never exits in that case; the embedding makes the iteration budget
explicit and returns `none` on exhaustion (= divergence of the source). -/

/-- State of one line pass: the line text and the running `nvars`,
`nreplaced` counters. -/
def replaceVarsLine (vars : List (String × String)) :
    ℕ → String → ℕ → ℕ → Option (String × ℕ × ℕ)
  | 0, _, _, _ => none
  | fuel + 1, sline, nvars, nreplaced =>
    if containsStr sline "VAR_" && !(beginsWith sline "//") then
      match vars.find? (fun kv => containsStr sline kv.1) with
      | some kv =>
        replaceVarsLine vars fuel (replaceAllStr sline kv.1 kv.2)
          (nvars + 1) (nreplaced + 1)
      | none => replaceVarsLine vars fuel sline (nvars + 1) nreplaced
    else some (sline, nvars, nreplaced)

/-- Process every line of the file, accumulating the transformed lines and
the two counters. -/
def replaceVarsLines (vars : List (String × String)) (fuel : ℕ) :
    List String → Option (List String × ℕ × ℕ)
  | [] => some ([], 0, 0)
  | l :: rest =>
    match replaceVarsLine vars fuel l 0 0 with
    | none => none
    | some (l', nv, nr) =>
      match replaceVarsLines vars fuel rest with
      | none => none
      | some (rest', nv', nr') => some (l' :: rest', nv + nv', nr + nr')

/-- `AliMuonAccEffSubmitter::ReplaceVars` on the file's line list: returns
the success flag and the final file content (rewritten only when at least
one variable token was found and all were replaced). -/
def replaceVarsFile (vars : List (String × String)) (fuel : ℕ)
    (lines : List String) : Option (Bool × List String) :=
  match replaceVarsLines vars fuel lines with
  | none => none
  | some (outLines, nvars, nreplaced) =>
    if nvars > 0 then
      if nreplaced ≠ nvars then some (false, lines)
      else some (true, outLines)
    else some (true, lines)

/-- `AliMuonAccEffSubmitter::HasVars` on the file's line list. -/
def hasVarsLines (lines : List String) : Bool :=
  lines.any (fun l => containsStr l "VAR_" && !(beginsWith l "//"))

/-! ## JDL key emission (`Output`, lines 935-973) -/

/-- The loop body of the multi-value branch: `--n; print "\t\"v\""; if n
print ","; print endl` for each value, with `n` the count before the
decrement. -/
def outputMulti : List String → ℕ → String
  | [], _ => ""
  | v :: rest, n =>
    "\t\"" ++ v ++ "\"" ++ (if n - 1 ≠ 0 then "," else "") ++ "\n"
      ++ outputMulti rest (n - 1)

/-- `AliMuonAccEffSubmitter::Output(out, key, values)`: `none` models the
null-pointer dereference `values.At(0)` of an empty array.  A single
value is printed as `Atoi()` when `IsDigit()` holds and quoted otherwise;
more than one value becomes a brace-delimited list. -/
def outputKV (key : String) (values : List String) : Option String :=
  if values.length > 1 then
    some (key ++ " = " ++ "\x7b\n" ++ outputMulti values values.length
      ++ "\x7d" ++ ";\n")
  else
    match values with
    | [] => none
    | v1 :: _ =>
      some (key ++ " = "
        ++ (if isDigitTS v1 then toString (atoiTS v1) else "\"" ++ v1 ++ "\"")
        ++ ";\n")

/-! ## Local cleanup (`CleanLocal`, lines 221-235) -/

/-- `AliMuonAccEffSubmitter::CleanLocal`: unlink every local file, except
that with `cleanSnapshots = false` files whose name contains `"OCDB_"` are
skipped.  The method never consults `fIsValid`. -/
def cleanLocal (s : Submitter) (cleanSnapshots : Bool) : List Effect :=
  s.fLocalFileList.filterMap (fun f =>
    if !cleanSnapshots && containsStr f "OCDB_" then none
    else some (Effect.unlink f))

/-! ## Last merging stage (`GetLastStage`, lines 618-633)

`GetLastStage` counts the `Stage_*/` lines of a remote listing into `n`,
then runs `while (n > 0) if (grep Stage_%d/ succeeds with ++lastStage)
n--;`.  The local `lastStage` is an `Int_t`, but the function is DECLARED
`Bool_t`, so the caller only ever sees 0 or 1. -/

/-- The scanning loop of `GetLastStage` with explicit fuel: `n` remaining
lines to account for, `k` the current stage counter. -/
def lastStageScan (stages : List ℕ) : ℕ → ℕ → ℕ → ℕ
  | 0, _, k => k
  | fuel + 1, n, k =>
    if n = 0 then k
    else
      if (k + 1) ∈ stages then lastStageScan stages fuel (n - 1) (k + 1)
      else lastStageScan stages fuel n (k + 1)

/-- The `Int_t lastStage` value computed inside `GetLastStage`. -/
def lastStageRaw (stages : List ℕ) (fuel : ℕ) : ℕ :=
  lastStageScan stages fuel stages.length 0

/-- `AliMuonAccEffSubmitter::GetLastStage` as the caller sees it: the
`Int_t` result squeezed through the declared `Bool_t` return type. -/
def getLastStage (stages : List ℕ) (fuel : ℕ) : Bool :=
  !(lastStageRaw stages fuel = 0)

/-- The `Int_t lastStage = GetLastStage(...)` value observed inside
`Merge` (C++ `bool` promoted back to `int`). -/
def observedLastStage (stages : List ℕ) (fuel : ℕ) : ℤ :=
  if getLastStage stages fuel then 1 else 0

/-! ## Upload path (`CopyFile`, `CheckRemoteDir`, `CopyLocalFilesToRemote`,
lines 245-357) -/

/-- `AliMuonAccEffSubmitter::CopyFile`: resolve the local path, require it
to exist, build the remote path (snapshot-dir prefix stripped from
absolute paths), create the remote parent directory on demand, then copy. -/
def copyFileOp (s : Submitter) (env : Env) (localFile : String) :
    Bool × List Effect :=
  let isAbs := beginsWith localFile "/"
  let localPath := if isAbs then localFile else s.fLocalDir ++ "/" ++ localFile
  if !(env.localExists localPath) then (false, [])
  else
    let remote := s.fRemoteDir ++ "/"
      ++ (if isAbs then replaceAllStr localFile s.fSnapshotDir "" else localFile)
    let dname := dirName remote
    if remoteDirectoryExists env dname then
      (env.cpOk localPath remote,
        [Effect.fileCp localPath ("alien://" ++ remote)])
    else
      if env.mkdirOk dname then
        (env.cpOk localPath remote,
          [Effect.gridMkdir dname, Effect.fileCp localPath ("alien://" ++ remote)])
      else (false, [Effect.gridMkdir dname])

/-- `AliMuonAccEffSubmitter::CheckRemoteDir`: non-empty remote dir, a grid
connection, and an existing remote directory. -/
def checkRemoteDir (s : Submitter) (env : Env) : Bool :=
  if s.fRemoteDir = "" then false
  else if !env.hasGrid then false
  else remoteDirectoryExists env s.fRemoteDir

/-- The upload loop of `CopyLocalFilesToRemote`: `allok = allok &&
CopyFile(...)`; the C++ `&&` short-circuits, so after the first failure no
further copy is attempted. -/
def clfrLoop (s : Submitter) (env : Env) : List String → Bool × List Effect
  | [] => (true, [])
  | f :: rest =>
    let (ok, fx) := copyFileOp s env f
    if ok then
      let (res, fx2) := clfrLoop s env rest
      (res, fx ++ fx2)
    else (false, fx)

/-- `AliMuonAccEffSubmitter::CopyLocalFilesToRemote` (guarded by
`IsValid`). -/
def copyLocalFilesToRemote (s : Submitter) (env : Env) : Bool × List Effect :=
  if !s.fIsValid then (false, [])
  else if checkRemoteDir s env then clfrLoop s env s.fLocalFileList
  else (false, [])

/-! ## JDL generation and template copying (lines 360-616) -/

/-- `AliMuonAccEffSubmitter::CreateJDLFile` succeeds when the file may be
written (overwrite allowed or not yet present) and the stream opens. -/
def createJDLFile (s : Submitter) (env : Env) (name : String) : Bool :=
  let jdl := s.fLocalDir ++ "/" ++ name
  if !s.fShouldOverwriteFiles && env.localExists jdl then false
  else !(env.streamBad jdl)

/-- `AliMuonAccEffSubmitter::GenerateMergeJDL`; the emitted text consists
of the `Output` calls of the source, whose formatting is verified
separately through `outputKV`. -/
def generateMergeJDL (s : Submitter) (env : Env) (name : String) :
    Bool × List Effect :=
  if !(createJDLFile s env name) then (false, [])
  else (true, [Effect.writeFile (s.fLocalDir ++ "/" ++ name)])

/-- `AliMuonAccEffSubmitter::GenerateRunJDL`; fails (after starting to
write) on an unknown `CompactMode`. -/
def generateRunJDL (s : Submitter) (env : Env) (name : String) :
    Bool × List Effect :=
  if !(createJDLFile s env name) then (false, [])
  else if s.fCompactMode = 0 || s.fCompactMode = 1 then
    (true, [Effect.writeFile (s.fLocalDir ++ "/" ++ name)])
  else (false, [Effect.writeFile (s.fLocalDir ++ "/" ++ name)])

/-- The template loop of `CopyTemplateFilesToLocal`, accumulating the
`err` counter and the `potentialProblem` flag; `none` propagates a
diverging `ReplaceVars` call. -/
def ctflLoop (s : Submitter) (env : Env) (vfuel : ℕ) :
    List String → Option (ℤ × Bool × List Effect)
  | [] => some (0, false, [])
  | f :: rest =>
    if containsStr f "OCDB" then ctflLoop s env vfuel rest
    else if !s.fShouldOverwriteFiles && env.localExists f then
      match ctflLoop s env vfuel rest with
      | none => none
      | some (err, _, fx) => some (err, true, fx)
    else
      let stemplate := s.fTemplateDir ++ "/" ++ f
      let slocal := s.fLocalDir ++ "/" ++ f
      let c := env.copyFileCode stemplate slocal
      let copyFx := Effect.localCopy stemplate slocal
      if c ≠ 0 then
        let gen :=
          if containsStr stemplate.toLower ".jdl" then
            if containsStr stemplate.toLower "merge" then
              generateMergeJDL s env f
            else generateRunJDL s env f
          else (false, [])
        match ctflLoop s env vfuel rest with
        | none => none
        | some (err, pot, fx) =>
          some (err + (if gen.1 then 0 else c), pot, copyFx :: gen.2 ++ fx)
      else
        let lines := env.fileLines slocal
        if hasVarsLines lines then
          match replaceVarsFile s.fVars vfuel lines with
          | none => none
          | some (ok, _) =>
            match ctflLoop s env vfuel rest with
            | none => none
            | some (err, pot, fx) =>
              if ok then
                some (err, pot, copyFx :: Effect.writeFile slocal :: fx)
              else some (err + 1, pot, copyFx :: fx)
        else
          match ctflLoop s env vfuel rest with
          | none => none
          | some (err, pot, fx) => some (err, pot, copyFx :: fx)

/-- `AliMuonAccEffSubmitter::CopyTemplateFilesToLocal` (guarded by
`IsValid`): fails when any file could not be overwritten or any copy /
generation / substitution step errored. -/
def copyTemplateFilesToLocal (s : Submitter) (env : Env) (vfuel : ℕ) :
    Option (Bool × List Effect) :=
  if !s.fIsValid then some (false, [])
  else
    match ctflLoop s env vfuel s.fTemplateFileList with
    | none => none
    | some (err, pot, fx) => some (if pot then false else err = 0, fx)

/-! ## OCDB snapshots (`MakeOCDBSnapshots`, lines 708-760) -/

/-- The per-run loop of `MakeOCDBSnapshots`: skip runs whose two snapshot
files already exist, otherwise run `aliroot ... --snapshot`, check that
both files appeared, and register them in the local file list. -/
def mosLoop (s : Submitter) (env : Env) : List ℤ → Bool × List String × List Effect
  | [] => (true, [], [])
  | run :: rest =>
    let ocdbSim := s.fSnapshotDir ++ "/OCDB/" ++ toString run ++ "/OCDB_sim.root"
    let ocdbRec := s.fSnapshotDir ++ "/OCDB/" ++ toString run ++ "/OCDB_rec.root"
    let tail := mosLoop s env rest
    if env.localExists ocdbSim && env.localExists ocdbRec then tail
    else
      let fx := Effect.exec
        ("aliroot -b -q -x simrun.C --run " ++ toString run ++ " --snapshot")
      ((env.localExistsAfter ocdbSim && env.localExistsAfter ocdbRec) && tail.1,
        ocdbSim :: ocdbRec :: tail.2.1, fx :: tail.2.2)

/-- `AliMuonAccEffSubmitter::MakeOCDBSnapshots` (guarded by `IsValid`;
trivially true when snapshots are disabled, false without a run list). -/
def makeOCDBSnapshots (s : Submitter) (env : Env) :
    Bool × Submitter × List Effect :=
  if !s.fIsValid then (false, s, [])
  else if !s.fUseOCDBSnapshots then (true, s, [])
  else
    match s.fScalers with
    | none => (false, s, [])
    | some runs =>
      let (ok, added, fx) := mosLoop s env runs
      (ok, { s with fLocalFileList := s.fLocalFileList ++ added }, fx)

/-! ## Job submission (`Submit`, lines 1446-1569) -/

/-- The per-run body of the `Submit` loop.  A run without a reference
trigger scaler is skipped (`continue`); otherwise the target event count,
the chunk count and the per-chunk event count are computed, the table row
is printed, and (unless `dryRun`) the submission command is issued.  The
result of the command is only echoed, never returned. -/
def submitStep (s : Submitter) (env : Env) (dryRun : Bool) (run : ℤ) :
    ℤ × List (ℤ × ℤ × ℤ × ℤ) × List Effect :=
  let nEvtRunOpt :=
    if Rat.blt 0 s.fRatioVal then
      (env.triggerValue run).map (fun v => nint (qMul s.fRatioVal ((v : ℤ) : ℚ)))
    else some s.fFixedNofEvents
  match nEvtRunOpt with
  | none => (0, [], [])
  | some nEvtRun =>
    let nChunk := computeNChunk nEvtRun s.fMaxEventsPerChunk
    let nEvtChunk := computeNEvtChunk nEvtRun nChunk
    let query := "submit " ++ runJDLName ++ " " ++ toString run ++ " "
      ++ toString nChunk ++ " " ++ toString nEvtChunk
    (nChunk, [(run, nEvtRun, nChunk, nEvtChunk)],
      if dryRun then [] else [Effect.gridCommand query])

/-- The `Submit` loop over the run list, accumulating the master-job
count `nJobs`, the printed `run/chunks/events` table (extended with the
per-run target event count) and the issued commands. -/
def submitLoop (s : Submitter) (env : Env) (dryRun : Bool) :
    List ℤ → ℤ × List (ℤ × ℤ × ℤ × ℤ) × List Effect
  | [] => (0, [], [])
  | run :: rest =>
    let this := submitStep s env dryRun run
    let tail := submitLoop s env dryRun rest
    (this.1 + tail.1, this.2.1 ++ tail.2.1, this.2.2 ++ tail.2.2)

/-- `AliMuonAccEffSubmitter::Submit`: guarded by `IsValid`, the remote
presence of the run JDL, a non-null scaler object and a non-empty run
list; returns the number of submitted (master) jobs. -/
def submit (s : Submitter) (env : Env) (dryRun : Bool) :
    ℤ × List (ℤ × ℤ × ℤ × ℤ) × List Effect :=
  if !s.fIsValid then (0, [], [])
  else
    let fx0 := [Effect.gridCd s.fRemoteDir]
    if !(remoteFileExists env runJDLName) then (0, [], fx0)
    else
      match s.fScalers with
      | none => (0, [], fx0)
      | some runs =>
        if runs.isEmpty then (0, [], fx0)
        else
          let r := submitLoop s env dryRun runs
          (r.1, r.2.1, fx0 ++ r.2.2)

/-! ## Merging (`Merge`, lines 763-923) -/

/-- The anonymous-namespace constant `splitLevel = 10`. -/
def splitLevel : ℤ := 10

/-- The per-run body of the `Merge` loop.  Returns the failed run (if the
submission for it failed), the updated interactive `reply` state and the
effects.  Skipped runs (already merged, wrong stage, empty collection,
user said no, dry run) are not failures. -/
def mergeStep (s : Submitter) (env : Env) (stage : ℤ) (dryRun : Bool)
    (jdl : String) (gfuel : ℕ) (run : ℤ) (reply : String) :
    Option ℤ × String × List Effect :=
  let runDir := s.fMergedDir ++ "/" ++ toString run
  let fx0 :=
    if !(remoteDirectoryExists env runDir) then
      [Effect.exec ("alien_mkdir -p " ++ runDir)]
    else []
  if remoteFileExists env (runDir ++ "/root_archive.zip") then
    (none, reply, fx0)
  else
    let lastStage := observedLastStage (env.stagesFor run) gfuel
    if stage > 0 && !(stage = lastStage + 1) then (none, reply, fx0)
    else
      let wn := if stage > 0 then "Stage_" ++ toString stage ++ ".xml" else "wn.xml"
      let find :=
        if lastStage = 0 then
          "alien_find -x " ++ wn ++ " " ++ s.fRemoteDir ++ "/" ++ toString run
            ++ " *root_archive.zip"
        else
          "alien_find -x " ++ wn ++ " " ++ s.fRemoteDir ++ "/" ++ toString run
            ++ "/Stage_" ++ toString lastStage ++ " *root_archive.zip"
      let fx1 := fx0 ++
        [Effect.exec (find ++ " 1> " ++ wn ++ " 2>/dev/null"),
         Effect.exec ("grep -c /event " ++ wn ++ " > __nfiles__"),
         Effect.exec "rm -f __nfiles__"]
      let nFiles := env.nFilesFor run
      if nFiles = 0 then
        (none, reply, fx1 ++ [Effect.exec ("rm -f " ++ wn)])
      else
        let askUser := stage > 0 && nFiles ≤ splitLevel && !(beginsWith reply "y")
        let reply1 :=
          if askUser && !(beginsWith reply "n") then (env.userInput run).toLower
          else reply
        if askUser && beginsWith reply1 "n" then
          (none, reply1, fx1 ++ [Effect.exec ("rm -f " ++ wn)])
        else
          let reply2 := if askUser then "y" else reply1
          let dirwn := runDir ++ "/" ++ wn
          let fx2 := fx1 ++
            (if !dryRun then
              (if remoteFileExists env dirwn then [Effect.gridRm dirwn] else [])
                ++ [Effect.exec ("alien_cp file:" ++ wn ++ " alien://" ++ dirwn),
                    Effect.exec ("rm -f " ++ wn)]
            else [])
          let query :=
            if stage > 0 then
              "submit " ++ jdl ++ " " ++ toString run ++ " " ++ toString stage
            else "submit " ++ jdl ++ " " ++ toString run
          if dryRun then (none, reply2, fx2)
          else
            let done :=
              match env.command query with
              | some jid => isDec jid
              | none => false
            if done then (none, reply2, fx2 ++ [Effect.gridCommand query])
            else
              (some run, reply2, fx2 ++
                [Effect.gridCommand query,
                 Effect.exec ("echo " ++ toString run ++ " >> __failed__")])

/-- The `Merge` loop over the run list, threading the interactive reply
state and collecting the failed runs. -/
def mergeLoop (s : Submitter) (env : Env) (stage : ℤ) (dryRun : Bool)
    (jdl : String) (gfuel : ℕ) : List ℤ → String → List ℤ × List Effect
  | [], _ => ([], [])
  | run :: rest, reply =>
    let (failedHere, reply', fx) := mergeStep s env stage dryRun jdl gfuel run reply
    let (failedRest, fxRest) := mergeLoop s env stage dryRun jdl gfuel rest reply'
    (failedHere.toList ++ failedRest, fx ++ fxRest)

/-- `AliMuonAccEffSubmitter::Merge`: requires the merged directory and the
merge JDL remotely, dereferences `fScalers` WITHOUT a null check (`none`
models that crash), tolerates per-run submission failures by collecting
the failed runs, and returns false iff at least one run failed.  The
method never consults `fIsValid`. -/
def merge (s : Submitter) (env : Env) (stage : ℤ) (dryRun : Bool)
    (gfuel : ℕ) : Option (Bool × List ℤ × List Effect) :=
  if !(remoteDirectoryExists env s.fMergedDir) then some (false, [], [])
  else
    let fx0 := [Effect.gridCd s.fMergedDir]
    let jdl := mergeJDLName (decide (stage = 0))
    if !(remoteFileExists env jdl) then some (false, [], fx0)
    else
      match s.fScalers with
      | none => none
      | some runs =>
        if runs.isEmpty then some (false, [], fx0)
        else
          let fx1 := fx0 ++ [Effect.exec "rm -f __failed__"]
          let (failed, fx2) := mergeLoop s env stage dryRun jdl gfuel runs ""
          if failed.isEmpty then some (true, failed, fx1 ++ fx2)
          else
            some (false, failed, fx1 ++ fx2 ++
              [Effect.exec "cat __failed__", Effect.exec "rm -f __failed__"])

/-! ## Mode dispatch (`Run`, lines 1174-1242)

`Run` re-dispatches on mode strings (`FULL` calls `LOCAL`, `OCDB`,
`UPLOAD`, `SUBMIT`; `OCDB` calls `LOCAL`; `TEST` calls three of them), so
the embedding carries a recursion depth; the source's second `FULL` branch
is unreachable (the first one returns) and is not modelled. -/

/-- `AliMuonAccEffSubmitter::Run` (guarded by `IsValid` on entry of every
dispatch). -/
def runMode (env : Env) (vfuel : ℕ) : ℕ → Submitter → String →
    Option (Bool × Submitter × List Effect)
  | 0, _, _ => none
  | depth + 1, s, mode =>
    if !s.fIsValid then some (false, s, [])
    else
      let smode := mode.toUpper
      if smode = "FULL" then
        match runMode env vfuel depth s "LOCAL" with
        | none => none
        | some (ok1, s1, f1) =>
          if !ok1 then some (false, s1, f1)
          else
            match runMode env vfuel depth s1 "OCDB" with
            | none => none
            | some (ok2, s2, f2) =>
              if !ok2 then some (false, s2, f1 ++ f2)
              else
                match runMode env vfuel depth s2 "UPLOAD" with
                | none => none
                | some (ok3, s3, f3) =>
                  if !ok3 then some (false, s3, f1 ++ f2 ++ f3)
                  else
                    match runMode env vfuel depth s3 "SUBMIT" with
                    | none => none
                    | some (ok4, s4, f4) =>
                      some (ok4, s4, f1 ++ f2 ++ f3 ++ f4)
      else if smode = "LOCAL" then
        match copyTemplateFilesToLocal s env vfuel with
        | none => none
        | some (ok, fx) => some (ok, s, fx)
      else if smode = "UPLOAD" then
        let (ok, fx) := copyLocalFilesToRemote s env
        some (ok, s, fx)
      else if smode = "OCDB" then
        match runMode env vfuel depth s "LOCAL" with
        | none => none
        | some (ok1, s1, f1) =>
          if ok1 then
            let (ok2, s2, f2) := makeOCDBSnapshots s1 env
            some (ok2, s2, f1 ++ f2)
          else some (false, s1, f1)
      else if smode = "TEST" then
        match runMode env vfuel depth s "LOCAL" with
        | none => none
        | some (ok1, s1, f1) =>
          if !ok1 then some (false, s1, f1)
          else
            match runMode env vfuel depth s1 "OCDB" with
            | none => none
            | some (ok2, s2, f2) =>
              if !ok2 then some (false, s2, f1 ++ f2)
              else
                match runMode env vfuel depth s2 "UPLOAD" with
                | none => none
                | some (ok3, s3, f3) =>
                  if !ok3 then some (false, s3, f1 ++ f2 ++ f3)
                  else
                    let r := submit s3 env true
                    some (decide (r.1 > 0), s3, f1 ++ f2 ++ f3 ++ r.2.2)
      else if smode = "SUBMIT" then
        let r := submit s env false
        some (decide (r.1 > 0), s, r.2.2)
      else some (false, s, [])

/-! ## Shared lemmas for the chunk-planning loop -/

theorem nChunkLoop_spec (e m : ℤ) (he : 0 < e) (hm : 0 < m) :
    ∀ (f : ℕ) (k : ℤ), 0 < k → k ≤ e + 1 → (e + 2 - k).toNat ≤ f →
      k ≤ nChunkLoop e m f k ∧ Int.tdiv e (nChunkLoop e m f k) < m ∧
        ∀ j, k ≤ j → j < nChunkLoop e m f k → m ≤ Int.tdiv e j := by
  intro f
  induction f with
  | zero =>
    intro k _ hk2 hf
    exfalso
    omega
  | succ f ih =>
    intro k hk hk2 hf
    simp only [nChunkLoop]
    by_cases hc : chunkCond e k m = true
    · rw [if_pos hc]
      have hcond : m ≤ Int.tdiv e k := (chunkCond_true_iff e k m).mp hc
      have hklt : k ≤ e := by
        by_contra hgt
        push_neg at hgt
        have hke : k = e + 1 := by omega
        subst hke
        have h0 : Int.tdiv e (e + 1) = 0 :=
          Int.tdiv_eq_zero_of_lt (le_of_lt he) (by omega)
        omega
      obtain ⟨h1, h2, h3⟩ := ih (k + 1) (by omega) (by omega) (by omega)
      refine ⟨by omega, h2, ?_⟩
      intro j hj1 hj2
      rcases eq_or_lt_of_le hj1 with rfl | hj
      · exact hcond
      · exact h3 j (by omega) hj2
    · rw [if_neg hc]
      have hnot : ¬ m ≤ Int.tdiv e k := fun h => hc ((chunkCond_true_iff e k m).mpr h)
      exact ⟨le_refl k, by omega, fun j hj1 hj2 => absurd hj2 (by omega)⟩

theorem computeNChunk_spec (e m : ℤ) (he : 0 < e) (hm : 0 < m) :
    1 ≤ computeNChunk e m ∧ Int.tdiv e (computeNChunk e m) < m ∧
      ∀ j, 0 < j → j < computeNChunk e m → m ≤ Int.tdiv e j := by
  have h := nChunkLoop_spec e m he hm (e.toNat + 2) 1 (by omega) (by omega) (by omega)
  obtain ⟨h1, h2, h3⟩ := h
  exact ⟨h1, h2, fun j hj1 hj2 => h3 j (by omega) hj2⟩

/-- C1: the chunk-planning claim fails at the exactly-divisible input
`nEvtRun = 1200`, `maxEventsPerChunk = 600`: the loop of `Submit`
computes `nChunk = 3`, although `nChunk = 2 = 1200/600` already satisfies
`nEvtRun/nChunk ≤ maxEventsPerChunk`, so the computed value is neither the
claimed minimum nor `nEvtRun/maxEventsPerChunk` on the divisible
boundary. -/
theorem c1_counterexample :
    computeNChunk 1200 600 = 3 ∧ (1200 : ℤ) % 600 = 0 ∧
      (1200 : ℤ) / 600 = 2 ∧ Int.tdiv 1200 2 ≤ 600 ∧ ¬ ((3 : ℤ) = 2) := by
  decide

/-- C1 (amended): for `nEvtRun > 0` and `maxEventsPerChunk > 0` the loop
computes the minimal positive `nChunk` with `nEvtRun/nChunk` (integer
division) STRICTLY below `maxEventsPerChunk`; in particular
`nEvtRun/nChunk ≤ maxEventsPerChunk` holds, but when `maxEventsPerChunk`
divides `nEvtRun` exactly the result is `nEvtRun/maxEventsPerChunk + 1`
(one more), not `nEvtRun/maxEventsPerChunk`. -/
theorem c1_amended (nEvtRun maxPerChunk : ℤ) (he : 0 < nEvtRun)
    (hm : 0 < maxPerChunk) :
    Int.tdiv nEvtRun (computeNChunk nEvtRun maxPerChunk) < maxPerChunk ∧
    (∀ j, 0 < j → j < computeNChunk nEvtRun maxPerChunk →
      maxPerChunk ≤ Int.tdiv nEvtRun j) ∧
    (maxPerChunk ∣ nEvtRun →
      computeNChunk nEvtRun maxPerChunk = nEvtRun / maxPerChunk + 1) := by
  obtain ⟨h1, h2, h3⟩ := computeNChunk_spec nEvtRun maxPerChunk he hm
  refine ⟨h2, h3, ?_⟩
  intro hdvd
  set n := computeNChunk nEvtRun maxPerChunk with hn
  set q := nEvtRun / maxPerChunk with hq
  have hqpos : 0 < q := Int.ediv_pos_of_pos_of_dvd he (le_of_lt hm) hdvd
  have heq : maxPerChunk * q = nEvtRun := Int.mul_ediv_cancel' hdvd
  have htd : ∀ j : ℤ, 0 < j → Int.tdiv nEvtRun j = nEvtRun / j := by
    intro j hj
    exact Int.tdiv_eq_ediv (le_of_lt he) (le_of_lt hj)
  -- the computed value exceeds q ...
  have hgt : q < n := by
    by_contra hle
    push_neg at hle
    have hnpos : 0 < n := by omega
    have : maxPerChunk ≤ Int.tdiv nEvtRun n := by
      rw [htd n hnpos, Int.le_ediv_iff_mul_le hnpos]
      calc maxPerChunk * n ≤ maxPerChunk * q := by
            exact mul_le_mul_of_nonneg_left hle (le_of_lt hm)
        _ = nEvtRun := heq
    omega
  -- ... and q+1 already satisfies the exit condition, so n ≤ q+1
  have hle : n ≤ q + 1 := by
    by_contra hgt2
    push_neg at hgt2
    have : maxPerChunk ≤ Int.tdiv nEvtRun (q + 1) := h3 (q + 1) (by omega) (by omega)
    rw [htd (q + 1) (by omega)] at this
    have hlt : nEvtRun / (q + 1) < maxPerChunk := by
      rw [Int.ediv_lt_iff_lt_mul (by omega)]
      calc nEvtRun = maxPerChunk * q := heq.symm
        _ < maxPerChunk * (q + 1) := by nlinarith
      
    omega
  omega

/-- C1 witness: the amended theorem applied at `nEvtRun = 1200`,
`maxEventsPerChunk = 600`. -/
theorem c1_witness :
    (0 : ℤ) < 1200 ∧ (0 : ℤ) < 600 ∧
      (Int.tdiv 1200 (computeNChunk 1200 600) < 600 ∧
       (∀ j, 0 < j → j < computeNChunk 1200 600 → 600 ≤ Int.tdiv 1200 j) ∧
       ((600 : ℤ) ∣ 1200 → computeNChunk 1200 600 = 1200 / 600 + 1)) :=
  ⟨by decide, by decide, c1_amended 1200 600 (by decide) (by decide)⟩

/-! ## Shared lemmas for `ReplaceVars` -/

/-- When a line still holds a `VAR_` token but no key of the variable
store occurs in it, the inner `while` of `ReplaceVars` re-tests the
unchanged line forever: no iteration budget makes it finish. -/
theorem replaceVarsLine_stuck (vars : List (String × String)) (sline : String)
    (h1 : containsStr sline "VAR_" = true) (h2 : beginsWith sline "//" = false)
    (h3 : vars.find? (fun kv => containsStr sline kv.1) = none) :
    ∀ fuel nv nr, replaceVarsLine vars fuel sline nv nr = none := by
  intro fuel
  induction fuel with
  | zero => intro nv nr; rfl
  | succ fuel ih =>
    intro nv nr
    simp only [replaceVarsLine, h1, h2, h3, Bool.not_false, Bool.and_self,
      if_true]
    exact ih (nv + 1) nr

/-- Any TERMINATING pass of the inner `while` replaced exactly as many
tokens as it found: the counters advance in lock-step. -/
theorem replaceVarsLine_counters (vars : List (String × String)) :
    ∀ (fuel : ℕ) (sline : String) (nv nr : ℕ) (out : String) (nv' nr' : ℕ),
      replaceVarsLine vars fuel sline nv nr = some (out, nv', nr') →
      ∃ d, nv' = nv + d ∧ nr' = nr + d := by
  intro fuel
  induction fuel with
  | zero => intro sline nv nr out nv' nr' h; exact absurd h (by simp [replaceVarsLine])
  | succ fuel ih =>
    intro sline nv nr out nv' nr' h
    by_cases hc : (containsStr sline "VAR_" && !(beginsWith sline "//")) = true
    · have hc1 : containsStr sline "VAR_" = true := by
        rw [Bool.and_eq_true] at hc
        exact hc.1
      have hc2 : beginsWith sline "//" = false := by
        rw [Bool.and_eq_true] at hc
        cases hb : beginsWith sline "//"
        · rfl
        · rw [hb] at hc
          simp at hc
      rw [replaceVarsLine, if_pos hc] at h
      cases hf : vars.find? (fun kv => containsStr sline kv.1) with
      | none =>
        rw [hf] at h
        rw [replaceVarsLine_stuck vars sline hc1 hc2 hf fuel (nv + 1) nr] at h
        exact absurd h (by simp)
      | some kv =>
        rw [hf] at h
        obtain ⟨d, hd1, hd2⟩ := ih _ _ _ _ _ _ h
        exact ⟨d + 1, by omega, by omega⟩
    · rw [replaceVarsLine, if_neg hc] at h
      injection h with h
      injection h with ha hb
      injection hb with hb1 hb2
      exact ⟨0, by omega, by omega⟩

/-- Over a whole file, a terminating `ReplaceVars` pass always ends with
`nreplaced = nvars`. -/
theorem replaceVarsLines_counters (vars : List (String × String)) (fuel : ℕ) :
    ∀ (lines : List String) (out : List String) (nv nr : ℕ),
      replaceVarsLines vars fuel lines = some (out, nv, nr) → nv = nr := by
  intro lines
  induction lines with
  | nil =>
    intro out nv nr h
    simp only [replaceVarsLines] at h
    injection h with h
    injection h with h1 h2
    injection h2 with h3 h4
    omega
  | cons l rest ih =>
    intro out nv nr h
    simp only [replaceVarsLines] at h
    cases h1 : replaceVarsLine vars fuel l 0 0 with
    | none => rw [h1] at h; exact absurd h (by simp)
    | some r1 =>
      rw [h1] at h
      obtain ⟨l', nv1, nr1⟩ := r1
      cases h2 : replaceVarsLines vars fuel rest with
      | none => rw [h2] at h; exact absurd h (by simp)
      | some r2 =>
        rw [h2] at h
        obtain ⟨rest', nv2, nr2⟩ := r2
        simp only [Option.some.injEq] at h
        obtain ⟨_, hnv, hnr⟩ := h
        obtain ⟨d, hd1, hd2⟩ := replaceVarsLine_counters vars fuel l 0 0 l' nv1 nr1 h1
        have := ih rest' nv2 nr2 h2
        omega

/-- The `nreplaced != nvars` failure branch of `ReplaceVars` is dead code:
whenever the routine terminates it reports success. -/
theorem replaceVarsFile_never_fails (vars : List (String × String))
    (fuel : ℕ) (lines out : List String) (b : Bool)
    (h : replaceVarsFile vars fuel lines = some (b, out)) : b = true := by
  unfold replaceVarsFile at h
  cases h1 : replaceVarsLines vars fuel lines with
  | none => rw [h1] at h; exact absurd h (by simp)
  | some r =>
    rw [h1] at h
    obtain ⟨outLines, nv, nr⟩ := r
    have heq : nv = nr := replaceVarsLines_counters vars fuel lines outLines nv nr h1
    subst heq
    dsimp only at h
    by_cases hpos : nv > 0
    · rw [if_pos hpos, if_neg (by omega)] at h
      injection h with h
      injection h with hb _
      exact hb.symm
    · rw [if_neg hpos] at h
      injection h with h
      injection h with hb _
      exact hb.symm

/-- C2: the claim is right and the code is wrong.  On a file containing
the token `VAR_FOO` with a variable store holding no key occurring in
that line, `ReplaceVars` neither fails nor leaves the file alone: its
inner `while` loop makes no progress and the routine never terminates
(every iteration budget is exhausted).  The `nvars != nreplaced` failure
return the spec describes is unreachable
(`replaceVarsFile_never_fails`). -/
theorem c2_code_bug :
    ∀ fuel, replaceVarsFile [("VAR_OCDB_PATH", "\"raw://\"")] fuel
      ["VAR_FOO"] = none := by
  intro fuel
  have h := replaceVarsLine_stuck [("VAR_OCDB_PATH", "\"raw://\"")] "VAR_FOO"
    (by decide) (by decide) (by decide) fuel 0 0
  simp only [replaceVarsFile, replaceVarsLines, h]

/-! ## Concrete fixtures used by witnesses and counterexamples -/

/-- A concrete submitter state.  The template file list follows the
defaults installed by `TemplateFileList()` (lines 1582-1597); the other
fields are sample values, freely chosen since every general theorem
quantifies over the state. -/
def sampleSubmitter : Submitter :=
  { fIsValid := false
    fRemoteDir := "remote/dir"
    fLocalDir := "."
    fTemplateDir := "templates"
    fSnapshotDir := "."
    fMergedDir := "remote/dir/AODs"
    fRatioVal := 1
    fFixedNofEvents := 10000
    fMaxEventsPerChunk := 5000
    fCompactMode := 1
    fShouldOverwriteFiles := false
    fUseOCDBSnapshots := true
    fUseAODMerging := false
    fScalers := none
    fVars := []
    fTemplateFileList := ["CheckESD.C", "CheckAOD.C", "AODtrain.C",
      "validation.sh", "Config.C", "rec.C", "sim.C", "simrun.C", runJDLName]
    fLocalFileList := [] }

/-- A concrete environment in which every remote listing is null and every
local operation succeeds. -/
def sampleEnv : Env :=
  { hasGrid := true
    gridLsF := fun _ => none
    gridLs := fun _ => none
    localExists := fun _ => false
    localExistsAfter := fun _ => true
    copyFileCode := fun _ _ => 0
    mkdirOk := fun _ => true
    cpOk := fun _ _ => true
    streamBad := fun _ => false
    fileLines := fun _ => []
    command := fun _ => some "12345"
    triggerValue := fun _ => none
    nFilesFor := fun _ => 1
    stagesFor := fun _ => []
    userInput := fun _ => "y" }

/-- Observer: the success flag of a `merge` outcome (`false` when the
call crashed or diverged). -/
def mergeOk (r : Option (Bool × List ℤ × List Effect)) : Bool :=
  match r with
  | none => false
  | some x => x.1

/-- Observer: the collected failed-run list of a `merge` outcome. -/
def mergeFailedRuns (r : Option (Bool × List ℤ × List Effect)) : List ℤ :=
  match r with
  | none => []
  | some x => x.2.1

/-- Observer: the effect trace of a `merge` outcome. -/
def mergeEffects (r : Option (Bool × List ℤ × List Effect)) : List Effect :=
  match r with
  | none => []
  | some x => x.2.2

/-- A submitter with a two-run list, used by the merge fixtures. -/
def mergeSubmitter : Submitter :=
  { sampleSubmitter with fScalers := some [7, 8] }

/-- An environment in which the merged directory and the final-merge JDL
exist remotely, every run has one file to merge, and the submission
command fails for run 7 but succeeds for run 8. -/
def mergeEnv : Env :=
  { sampleEnv with
    gridLsF := fun p => if p = "remote/dir" then some [[("name", "AODs/")]] else none
    gridLs := fun p =>
      if p = "AOD_merge_final.jdl" then some [[("name", "AOD_merge_final.jdl")]]
      else none
    command := fun q => if q = "submit AOD_merge_final.jdl 7" then none
      else some "99" }

/-! ## C3: validity gating -/

/-- C3 counterexample: destructive and remote operations run on an
INVALID object.  `CleanLocal` with `fIsValid = false` still unlinks the
listed file, and `Merge` with `fIsValid = false` still issues a grid
submission command (run 8) and collects run 7 as failed: neither method
consults `fIsValid`. -/
theorem c3_counterexample :
    (({ sampleSubmitter with fLocalFileList := ["rec.C"] } : Submitter).fIsValid
        = false ∧
      cleanLocal { sampleSubmitter with fLocalFileList := ["rec.C"] } true
        = [Effect.unlink "rec.C"]) ∧
    (mergeSubmitter.fIsValid = false ∧
      mergeFailedRuns (merge mergeSubmitter mergeEnv 0 false 1) = [7] ∧
      Effect.gridCommand "submit AOD_merge_final.jdl 8"
        ∈ mergeEffects (merge mergeSubmitter mergeEnv 0 false 1)) := by
  refine ⟨⟨rfl, rfl⟩, rfl, ?_, ?_⟩
  · rfl
  · decide

/-- C3 (amended): the validity gate holds for copying template files,
uploading, OCDB snapshotting, submitting and `Run` dispatch — on an
invalid object each returns failure with no effect — but NOT for `Merge`
and `CleanLocal`, which ignore `fIsValid` entirely (see
`c3_counterexample`; `CleanLocal` behaves identically on valid and
invalid objects). -/
theorem c3_amended (s : Submitter) (env : Env) (vfuel depth : ℕ)
    (mode : String) (dryRun : Bool) (h : s.fIsValid = false) :
    copyTemplateFilesToLocal s env vfuel = some (false, []) ∧
    copyLocalFilesToRemote s env = (false, []) ∧
    makeOCDBSnapshots s env = (false, s, []) ∧
    submit s env dryRun = (0, [], []) ∧
    runMode env vfuel (depth + 1) s mode = some (false, s, []) ∧
    (∀ cleanSnapshots, cleanLocal s cleanSnapshots
        = cleanLocal { s with fIsValid := true } cleanSnapshots) := by
  refine ⟨?_, ?_, ?_, ?_, ?_, ?_⟩
  · rw [copyTemplateFilesToLocal, h]
    rfl
  · rw [copyLocalFilesToRemote, h]
    rfl
  · rw [makeOCDBSnapshots, h]
    rfl
  · rw [submit, h]
    rfl
  · rw [runMode, h]
    rfl
  · intro cleanSnapshots
    cases s
    rfl

/-- C3 witness: the amended theorem applied to the (invalid) sample
submitter in the sample environment. -/
theorem c3_witness :
    sampleSubmitter.fIsValid = false ∧
    (copyTemplateFilesToLocal sampleSubmitter sampleEnv 3 = some (false, []) ∧
     copyLocalFilesToRemote sampleSubmitter sampleEnv = (false, []) ∧
     makeOCDBSnapshots sampleSubmitter sampleEnv = (false, sampleSubmitter, []) ∧
     submit sampleSubmitter sampleEnv false = (0, [], []) ∧
     runMode sampleEnv 3 (2 + 1) sampleSubmitter "FULL"
        = some (false, sampleSubmitter, []) ∧
     (∀ cleanSnapshots, cleanLocal sampleSubmitter cleanSnapshots
        = cleanLocal { sampleSubmitter with fIsValid := true } cleanSnapshots)) :=
  ⟨rfl, c3_amended sampleSubmitter sampleEnv 3 2 "FULL" false rfl⟩

/-! ## C4: remote existence checks -/

/-- Characterization of the directory-listing scan: it succeeds exactly
when some entry carries the looked-up name and every entry before it
carries SOME name (the scan breaks at the first nameless entry). -/
theorem scanForName_iff (dir : String) :
    ∀ l : List GridEntry, scanForName dir l = true ↔
      ∃ pre e post, l = pre ++ e :: post ∧ entryName e = some dir ∧
        ∀ x ∈ pre, (entryName x).isSome = true := by
  intro l
  induction l with
  | nil =>
    simp only [scanForName]
    constructor
    · intro h
      exact absurd h (by simp)
    · rintro ⟨pre, e, post, h, _, _⟩
      exact absurd h (by simp)
  | cons a rest ih =>
    simp only [scanForName]
    cases ha : entryName a with
    | none =>
      constructor
      · intro h
        exact absurd h (by simp)
      · rintro ⟨pre, e, post, hsplit, hname, hpre⟩
        cases pre with
        | nil =>
          simp only [List.nil_append, List.cons.injEq] at hsplit
          rw [hsplit.1] at ha
          rw [ha] at hname
          exact absurd hname (by simp)
        | cons p pre' =>
          simp only [List.cons_append, List.cons.injEq] at hsplit
          have := hpre p (by simp)
          rw [hsplit.1] at ha
          rw [ha] at this
          exact absurd this (by simp)
    | some n =>
      by_cases hd : dir = n
      · simp only [if_pos hd]
        constructor
        · intro _
          exact ⟨[], a, rest, by simp, by rw [ha, hd], by simp⟩
        · intro _
          trivial
      · simp only [if_neg hd]
        rw [ih]
        constructor
        · rintro ⟨pre, e, post, hsplit, hname, hpre⟩
          refine ⟨a :: pre, e, post, by rw [hsplit, List.cons_append], hname, ?_⟩
          intro x hx
          rcases List.mem_cons.mp hx with rfl | hx'
          · rw [ha]; rfl
          · exact hpre x hx'
        · rintro ⟨pre, e, post, hsplit, hname, hpre⟩
          cases pre with
          | nil =>
            simp only [List.nil_append, List.cons.injEq] at hsplit
            rw [hsplit.1] at ha
            rw [ha] at hname
            injection hname with hn
            exact absurd hn.symm hd
          | cons p pre' =>
            simp only [List.cons_append, List.cons.injEq] at hsplit
            exact ⟨pre', e, post, hsplit.2, hname,
              fun x hx => hpre x (List.mem_cons_of_mem p hx)⟩

/-- C4 counterexample: with a remote listing whose single entry is named
`"bogus"`, `RemoteFileExists "d/f"` returns true although no entry name
equals the queried base name `"f"` — the file check only tests that the
first entry's name is non-empty and never compares it with the path. -/
theorem c4_counterexample :
    remoteFileExists
        { sampleEnv with
          gridLs := fun p => if p = "d/f" then some [[("name", "bogus")]] else none }
        "d/f" = true ∧
      baseName "d/f" = "f" ∧
      entryName [("name", "bogus")] = some "bogus" ∧ ¬ ("bogus" = "f") := by
  refine ⟨rfl, ?_, rfl, by decide⟩
  decide

/-- C4 (amended): `RemoteDirectoryExists` succeeds iff the listing of the
parent of the (whitespace- and slash-stripped) path contains — before any
nameless entry — an entry whose name is exactly the base name with a
trailing slash; `RemoteFileExists` succeeds iff the listing of the path
is non-null and its FIRST entry has a non-empty name field, whatever that
name is. -/
theorem c4_amended (env : Env) (dirname lfn : String)
    (hg : env.hasGrid = true) :
    (remoteDirectoryExists env dirname = true ↔
      ∃ entries pre e post,
        env.gridLsF (dirName (stripTrailing (stripTrailing dirname ' ') '/'))
            = some entries ∧
        entries = pre ++ e :: post ∧
        entryName e
            = some (baseName (stripTrailing (stripTrailing dirname ' ') '/') ++ "/") ∧
        ∀ x ∈ pre, (entryName x).isSome = true) ∧
    (remoteFileExists env lfn = true ↔
      ∃ entries e n, env.gridLs lfn = some entries ∧ entries.head? = some e ∧
        entryName e = some n ∧ ¬ (n = "")) := by
  constructor
  · rw [remoteDirectoryExists, hg]
    simp only [Bool.not_true, Bool.false_eq_true, if_false]
    cases hls : env.gridLsF
        (dirName (stripTrailing (stripTrailing dirname ' ') '/')) with
    | none =>
      dsimp only
      constructor
      · intro h
        exact absurd h (by decide)
      · rintro ⟨entries, pre, e, post, hsome, _⟩
        exact absurd hsome (by simp)
    | some entries =>
      dsimp only
      rw [scanForName_iff]
      constructor
      · rintro ⟨pre, e, post, hsplit, hname, hpre⟩
        exact ⟨entries, pre, e, post, rfl, hsplit, hname, hpre⟩
      · rintro ⟨entries', pre, e, post, hsome, hsplit, hname, hpre⟩
        injection hsome with hsome
        subst hsome
        exact ⟨pre, e, post, hsplit, hname, hpre⟩
  · rw [remoteFileExists, hg]
    simp only [Bool.not_true, Bool.false_eq_true, if_false]
    cases hls : env.gridLs lfn with
    | none =>
      dsimp only
      constructor
      · intro h
        exact absurd h (by decide)
      · rintro ⟨entries, e, n, hsome, _⟩
        exact absurd hsome (by simp)
    | some entries =>
      dsimp only
      cases hh : entries.head? with
      | none =>
        dsimp only
        constructor
        · intro h
          exact absurd h (by decide)
        · rintro ⟨entries', e, n, hsome, hhead, _⟩
          injection hsome with hsome
          subst hsome
          rw [hh] at hhead
          exact absurd hhead (by simp)
      | some e =>
        dsimp only
        cases hn : entryName e with
        | none =>
          dsimp only
          constructor
          · intro h
            exact absurd h (by decide)
          · rintro ⟨entries', e', n, hsome, hhead, hname, _⟩
            injection hsome with hsome
            subst hsome
            rw [hh] at hhead
            injection hhead with hhead
            subst hhead
            rw [hn] at hname
            exact absurd hname (by simp)
        | some n =>
          dsimp only
          constructor
          · intro h
            refine ⟨entries, e, n, rfl, hh, hn, ?_⟩
            intro hEmpty
            rw [hEmpty] at h
            exact absurd h (by decide)
          · rintro ⟨entries', e', n', hsome, hhead, hname, hne⟩
            injection hsome with hsome
            subst hsome
            rw [hh] at hhead
            injection hhead with hhead
            subst hhead
            rw [hn] at hname
            injection hname with hname
            subst hname
            simp only [Bool.not_eq_true']
            rw [decide_eq_false_iff_not]
            exact hne

/-- C4 witness: the amended characterization applied to a concrete
environment whose listing of `"d"` holds `"f/"` and whose listing of
`"d/f"` holds a first entry named `"f"`. -/
theorem c4_witness :
    ({ sampleEnv with
        gridLsF := fun p => if p = "d" then some [[("name", "f/")]] else none
        gridLs := fun p => if p = "d/f" then some [[("name", "f")]] else none }
          : Env).hasGrid = true ∧
    ((remoteDirectoryExists
        { sampleEnv with
          gridLsF := fun p => if p = "d" then some [[("name", "f/")]] else none
          gridLs := fun p => if p = "d/f" then some [[("name", "f")]] else none }
        "d/f" = true ↔
      ∃ entries pre e post,
        ({ sampleEnv with
          gridLsF := fun p => if p = "d" then some [[("name", "f/")]] else none
          gridLs := fun p => if p = "d/f" then some [[("name", "f")]] else none }
            : Env).gridLsF
            (dirName (stripTrailing (stripTrailing "d/f" ' ') '/')) = some entries ∧
        entries = pre ++ e :: post ∧
        entryName e
            = some (baseName (stripTrailing (stripTrailing "d/f" ' ') '/') ++ "/") ∧
        ∀ x ∈ pre, (entryName x).isSome = true) ∧
    (remoteFileExists
        { sampleEnv with
          gridLsF := fun p => if p = "d" then some [[("name", "f/")]] else none
          gridLs := fun p => if p = "d/f" then some [[("name", "f")]] else none }
        "d/f" = true ↔
      ∃ entries e n,
        ({ sampleEnv with
          gridLsF := fun p => if p = "d" then some [[("name", "f/")]] else none
          gridLs := fun p => if p = "d/f" then some [[("name", "f")]] else none }
            : Env).gridLs "d/f" = some entries ∧ entries.head? = some e ∧
        entryName e = some n ∧ ¬ (n = ""))) :=
  ⟨rfl, c4_amended _ "d/f" "d/f" rfl⟩

/-! ## C5: per-run failure tolerance of the merge loop -/

/-- Spec-side per-run failure predicate for a final-stage (`stage = 0`)
merge pass: the run is neither skipped (already merged, empty collection,
dry run) nor successfully submitted — i.e. its submission command
returned no result or a non-decimal job identifier. -/
def mergeRunFails (s : Submitter) (env : Env) (dryRun : Bool)
    (jdl : String) (run : ℤ) : Bool :=
  !(remoteFileExists env (s.fMergedDir ++ "/" ++ toString run
      ++ "/root_archive.zip")) &&
  !(env.nFilesFor run = 0 : Bool) && !dryRun &&
  !(match env.command ("submit " ++ jdl ++ " " ++ toString run) with
    | some jid => isDec jid
    | none => false)

theorem mergeStep_stage0 (s : Submitter) (env : Env) (dryRun : Bool)
    (jdl : String) (gfuel : ℕ) (run : ℤ) (reply : String) :
    (mergeStep s env 0 dryRun jdl gfuel run reply).1
        = (if mergeRunFails s env dryRun jdl run then some run else none) ∧
    (mergeStep s env 0 dryRun jdl gfuel run reply).2.1 = reply := by
  have hst : ((0 : ℤ) > 0) = False := by norm_num
  unfold mergeStep mergeRunFails
  by_cases h1 : remoteFileExists env (s.fMergedDir ++ "/" ++ toString run
      ++ "/root_archive.zip") = true
  · simp [h1]
  · rw [Bool.not_eq_true] at h1
    by_cases h2 : env.nFilesFor run = 0
    · simp [h1, h2, hst]
    · cases hdry : dryRun with
      | true => simp [h1, h2, hst, hdry]
      | false =>
        cases hcmd : env.command ("submit " ++ jdl ++ " " ++ toString run) with
        | none => simp [h1, h2, hst, hcmd]
        | some jid =>
          cases hdec : isDec jid with
          | true => simp [h1, h2, hst, hcmd, hdec]
          | false => simp [h1, h2, hst, hcmd, hdec]


theorem mergeLoop_stage0 (s : Submitter) (env : Env) (dryRun : Bool)
    (jdl : String) (gfuel : ℕ) :
    ∀ (runs : List ℤ) (reply : String),
      (mergeLoop s env 0 dryRun jdl gfuel runs reply).1
        = runs.filter (fun r => mergeRunFails s env dryRun jdl r) := by
  intro runs
  induction runs with
  | nil => intro reply; rfl
  | cons run rest ih =>
    intro reply
    obtain ⟨h1, h2⟩ := mergeStep_stage0 s env dryRun jdl gfuel run reply
    rcases hstep : mergeStep s env 0 dryRun jdl gfuel run reply with ⟨fh, rp, fx⟩
    rw [hstep] at h1 h2
    subst h2
    simp only [mergeLoop, hstep]
    rw [List.filter_cons, ih _]
    by_cases hf : mergeRunFails s env dryRun jdl run = true
    · rw [if_pos hf] at h1
      have h1' : fh = some run := h1
      rw [h1', if_pos hf]
      rfl
    · rw [Bool.not_eq_true] at hf
      rw [hf] at h1
      rw [if_neg (by simp)] at h1
      have h1' : fh = none := h1
      rw [h1', hf]
      simp only [Bool.false_eq_true, if_false, Option.toList_none,
        List.nil_append]

/-- C5: per-run failure tolerance of the (final-stage) merge loop.  Given
the remote prerequisites and a run list, `Merge` never aborts on a failed
submission: the collected failure list is EXACTLY the sublist of runs
whose submission failed (every run is inspected, a failure does not stop
the iteration), and the overall result is failure if and only if at
least one run failed. -/
theorem c5_theorem (s : Submitter) (env : Env) (dryRun : Bool) (gfuel : ℕ)
    (runs : List ℤ) (hsc : s.fScalers = some runs) (hne : runs ≠ [])
    (hdir : remoteDirectoryExists env s.fMergedDir = true)
    (hjdl : remoteFileExists env (mergeJDLName true) = true) :
    mergeFailedRuns (merge s env 0 dryRun gfuel)
        = runs.filter (fun r => mergeRunFails s env dryRun (mergeJDLName true) r) ∧
    (mergeOk (merge s env 0 dryRun gfuel) = true ↔
      runs.filter (fun r => mergeRunFails s env dryRun (mergeJDLName true) r)
        = []) := by
  have hd0 : (decide ((0 : ℤ) = 0)) = true := by decide
  have hdT : (decide True) = true := rfl
  have hl := mergeLoop_stage0 s env dryRun (mergeJDLName true) gfuel runs ""
  rcases hloop : mergeLoop s env 0 dryRun (mergeJDLName true) gfuel runs ""
    with ⟨failed, fx2⟩
  rw [hloop] at hl
  have hfail : failed
      = runs.filter (fun r => mergeRunFails s env dryRun (mergeJDLName true) r) :=
    hl
  have hne' : runs.isEmpty = false := by
    cases runs with
    | nil => exact absurd rfl hne
    | cons a l => rfl
  rw [merge]
  simp only [hdir, Bool.not_true, Bool.false_eq_true, if_false, hd0, hdT,
    hjdl, hsc, hne', hloop]
  cases failed with
  | nil =>
    simp only [List.isEmpty_nil, if_true, mergeFailedRuns, mergeOk]
    exact ⟨hfail, ⟨fun _ => hfail.symm, fun _ => trivial⟩⟩
  | cons f fs =>
    simp only [List.isEmpty_cons, Bool.false_eq_true, if_false,
      mergeFailedRuns, mergeOk]
    exact ⟨hfail, ⟨fun h => absurd h (by decide),
      fun h => absurd (hfail.trans h) (by simp)⟩⟩

/-- C5 witness: the tolerance theorem applied to the two-run fixture in
which run 7's submission command fails while run 8's succeeds. -/
theorem c5_witness :
    mergeSubmitter.fScalers = some [7, 8] ∧ ¬ (([7, 8] : List ℤ) = []) ∧
    remoteDirectoryExists mergeEnv mergeSubmitter.fMergedDir = true ∧
    remoteFileExists mergeEnv (mergeJDLName true) = true ∧
    (mergeFailedRuns (merge mergeSubmitter mergeEnv 0 false 1)
        = ([7, 8] : List ℤ).filter
            (fun r => mergeRunFails mergeSubmitter mergeEnv false (mergeJDLName true) r) ∧
     (mergeOk (merge mergeSubmitter mergeEnv 0 false 1) = true ↔
       ([7, 8] : List ℤ).filter
            (fun r => mergeRunFails mergeSubmitter mergeEnv false (mergeJDLName true) r)
         = [])) :=
  ⟨rfl, by decide, rfl, rfl,
    c5_theorem mergeSubmitter mergeEnv false 1 [7, 8] rfl (by decide) rfl rfl⟩

/-! ## C6: end-to-end chunk computation -/

/-- The submitter of the end-to-end scenario: ratio 2.0, run list
`[1000, 1001]`, at most 600 events per chunk. -/
def c6Submitter : Submitter :=
  { sampleSubmitter with
    fIsValid := true
    fRatioVal := 2
    fMaxEventsPerChunk := 600
    fScalers := some [1000, 1001] }

/-- The environment of the end-to-end scenario: the run JDL exists
remotely and the reference-trigger counts are 500 (run 1000) and 800
(run 1001). -/
def c6Env : Env :=
  { sampleEnv with
    gridLs := fun p => if p = runJDLName then some [[("name", runJDLName)]]
      else none
    triggerValue := fun r => if r = 1000 then some 500
      else if r = 1001 then some 800 else none }

/-- C6: with run list `[1000, 1001]`, ratio 2.0, reference-trigger counts
500 and 800, and 600 events per chunk at most, `Submit` computes target
event counts 1000 and 1600, chunk counts 2 and 3, and per-chunk event
counts 500 and 534 (the rows of the printed `run/chunks/events` table,
extended with the target event count), for 5 master jobs in total. -/
theorem c6_theorem :
    (submit c6Submitter c6Env false).2.1
        = [(1000, 1000, 2, 500), (1001, 1600, 3, 534)] ∧
      (submit c6Submitter c6Env false).1 = 5 := by
  constructor
  · rfl
  · rfl

/-! ## C7: JDL key emission -/

theorem strAppendAssoc (a b c : String) : a ++ b ++ c = a ++ (b ++ c) := by
  cases a with
  | mk la =>
    cases b with
    | mk lb =>
      cases c with
      | mk lc =>
        show String.mk (la ++ lb ++ lc) = String.mk (la ++ (lb ++ lc))
        rw [List.append_assoc]

theorem isDigit_not_space (c : Char) (h : c.isDigit = true) :
    isSpaceChar c = false := by
  cases hs : isSpaceChar c
  · rfl
  · exfalso
    unfold isSpaceChar at hs
    simp only [Bool.or_eq_true, decide_eq_true_eq] at hs
    rcases hs with ((((rfl | rfl) | rfl) | rfl) | rfl) | rfl <;>
      exact absurd h (by decide)

theorem takeWhile_of_all {p : Char → Bool} :
    ∀ l : List Char, l.all p = true → l.takeWhile p = l := by
  intro l
  induction l with
  | nil => intro _; rfl
  | cons c cs ih =>
    intro h
    rw [List.all_cons, Bool.and_eq_true] at h
    rw [List.takeWhile_cons, if_pos h.1, ih h.2]

/-- On an all-digit character list, C `atoi` reads the whole list. -/
theorem atoiCList_digits :
    ∀ l : List Char, l.all Char.isDigit = true →
      atoiCList l = (digitsToNat l : ℤ) := by
  intro l hd
  unfold atoiCList
  cases l with
  | nil => rfl
  | cons c cs =>
    have hc : c.isDigit = true := by
      rw [List.all_cons, Bool.and_eq_true] at hd
      exact hd.1
    have hsp : isSpaceChar c = false := isDigit_not_space c hc
    have hdrop : List.dropWhile (fun x => isSpaceChar x) (c :: cs) = c :: cs := by
      rw [List.dropWhile_cons, if_neg (by rw [hsp]; exact Bool.false_ne_true)]
    rw [hdrop]
    dsimp only
    have hminus : ¬ (c = '-') := by
      intro he
      rw [he] at hc
      exact absurd hc (by decide)
    have hplus : ¬ (c = '+') := by
      intro he
      rw [he] at hc
      exact absurd hc (by decide)
    rw [if_neg hminus, if_neg hplus, takeWhile_of_all (c :: cs) hd]

/-- On an all-digit string, `TString::Atoi` reads the whole string. -/
theorem atoiTS_digits (v : String)
    (hd : v.data.all Char.isDigit = true) :
    atoiTS v = (digitsToNat v.data : ℤ) := by
  have hnsp : v.data.contains ' ' = false := by
    cases hc : v.data.contains ' ' with
    | false => rfl
    | true =>
      exfalso
      have hmem : ' ' ∈ v.data := by simpa using hc
      rw [List.all_eq_true] at hd
      exact absurd (hd ' ' hmem) (by decide)
  rw [atoiTS, if_neg (by rw [hnsp]; exact Bool.false_ne_true)]
  exact atoiCList_digits v.data hd

/-- On a string of digits and spaces, `TString::Atoi` removes the spaces
and reads the concatenation of the digit groups (ROOT's documented
`"123 456" -> 123456` behaviour). -/
theorem atoiTS_digit_space (v : String)
    (hd : v.data.all (fun c => c.isDigit || c = ' ') = true) :
    atoiTS v = (digitsToNat (v.data.filter (fun c => !(c = ' '))) : ℤ) := by
  have hfd : (v.data.filter (fun c => !(c = ' '))).all Char.isDigit = true := by
    rw [List.all_eq_true]
    intro x hx
    rw [List.mem_filter] at hx
    rw [List.all_eq_true] at hd
    have hds := hd x hx.1
    rw [Bool.or_eq_true] at hds
    rcases hds with h | h
    · exact h
    · exfalso
      rw [decide_eq_true_iff] at h
      have hx2 := hx.2
      rw [h] at hx2
      exact absurd hx2 (by decide)
  cases hc : v.data.contains ' ' with
  | true =>
    rw [atoiTS, if_pos hc]
    exact atoiCList_digits _ hfd
  | false =>
    rw [atoiTS, if_neg (by rw [hc]; exact Bool.false_ne_true)]
    have hfilter : v.data.filter (fun c => !(c = ' ')) = v.data := by
      rw [List.filter_eq_self]
      intro a ha
      have hne : ¬ (a = ' ') := by
        intro he
        rw [he] at ha
        have : v.data.contains ' ' = true := by simpa using ha
        rw [hc] at this
        exact absurd this (by decide)
      rw [decide_eq_false hne]
      rfl
    rw [hfilter]
    exact atoiCList_digits v.data (by rw [← hfilter]; exact hfd)

/-- The spec-side rendering of a multi-value JDL block: one quoted value
per line, comma-separated. -/
def quotedLines : List String → String
  | [] => ""
  | [v] => "\t\"" ++ v ++ "\"\n"
  | v :: rest => "\t\"" ++ v ++ "\",\n" ++ quotedLines rest

theorem outputMulti_eq : ∀ l : List String, outputMulti l l.length = quotedLines l := by
  intro l
  induction l with
  | nil => rfl
  | cons v rest ih =>
    cases rest with
    | nil =>
      show "\t\"" ++ v ++ "\"" ++ (if [v].length - 1 ≠ 0 then "," else "") ++ "\n"
          ++ outputMulti [] ([v].length - 1) = quotedLines [v]
      rw [if_neg (by simp)]
      show "\t\"" ++ v ++ "\"" ++ "" ++ "\n" ++ "" = "\t\"" ++ v ++ "\"\n"
      simp only [strAppendAssoc]
      rfl
    | cons r rs =>
      show "\t\"" ++ v ++ "\"" ++ (if (v :: r :: rs).length - 1 ≠ 0 then "," else "")
            ++ "\n" ++ outputMulti (r :: rs) ((v :: r :: rs).length - 1)
          = quotedLines (v :: r :: rs)
      have hlen : (v :: r :: rs).length - 1 = (r :: rs).length := rfl
      rw [hlen] at *
      rw [if_pos (by simp), ih]
      show "\t\"" ++ v ++ "\"" ++ "," ++ "\n" ++ quotedLines (r :: rs)
          = "\t\"" ++ v ++ "\",\n" ++ quotedLines (r :: rs)
      simp only [strAppendAssoc]
      rfl

/-- C7 counterexample: the single value `"123 456"` does NOT consist only
of digits, yet `Output` emits it as the unquoted integer literal `123456`
(`TString::IsDigit` also accepts whitespace, and `TString::Atoi` removes
the spaces and reads the concatenated digit groups), contradicting the
claimed all-digit/quoted dichotomy. -/
theorem c7_counterexample :
    outputKV "TTL" ["123 456"] = some "TTL = 123456;\n" ∧
      ("123 456").data.all Char.isDigit = false ∧
      containsStr "TTL = 123456;\n" "\"" = false := by
  refine ⟨rfl, ?_, ?_⟩
  · decide
  · decide

/-- C7 (amended): for a single-value key, the value is emitted as an
unquoted integer literal iff it is non-empty and every character is a
digit OR a whitespace character, in which case the literal is the
`TString::Atoi` parse: the full number for an all-digit value, and for a
digits-and-spaces value the number formed by deleting every space and
concatenating the digit groups (`"123 456"` becomes `123456`); any other
single value is emitted double-quoted.  A key with more than one value is
emitted as a brace-delimited block with one quoted value per line,
comma-separated. -/
theorem c7_amended (key v v1 v2 : String) (vs : List String) :
    (v.data ≠ [] → v.data.all Char.isDigit = true →
      outputKV key [v]
        = some (key ++ " = " ++ toString (digitsToNat v.data : ℤ) ++ ";\n")) ∧
    (v.data.all (fun c => c.isDigit || isSpaceChar c) = false ∨ v.data = [] →
      outputKV key [v] = some (key ++ " = " ++ ("\"" ++ v ++ "\"") ++ ";\n")) ∧
    (isDigitTS v = true →
      outputKV key [v] = some (key ++ " = " ++ toString (atoiTS v) ++ ";\n")) ∧
    (v.data ≠ [] → v.data.all (fun c => c.isDigit || c = ' ') = true →
      outputKV key [v]
        = some (key ++ " = "
            ++ toString (digitsToNat (v.data.filter (fun c => !(c = ' '))) : ℤ)
            ++ ";\n")) ∧
    outputKV key (v1 :: v2 :: vs)
      = some (key ++ " = " ++ "\x7b\n" ++ quotedLines (v1 :: v2 :: vs)
          ++ "\x7d" ++ ";\n") := by
  refine ⟨?_, ?_, ?_, ?_, ?_⟩
  · intro hne hd
    have hall : (v.data.all fun c => c.isDigit || isSpaceChar c) = true := by
      rw [List.all_eq_true] at hd ⊢
      intro x hx
      rw [Bool.or_eq_true]
      exact Or.inl (hd x hx)
    have hemp : v.data.isEmpty = false := by
      cases hv : v.data with
      | nil => exact absurd hv hne
      | cons a l => rfl
    have hdig : isDigitTS v = true := by
      rw [isDigitTS, hemp, hall]
      rfl
    rw [outputKV, if_neg (by simp)]
    rw [if_pos hdig, atoiTS_digits v hd]
  · intro hq
    have hdig : isDigitTS v = false := by
      rcases hq with hq | hq
      · rw [isDigitTS, hq, Bool.and_false]
      · rw [isDigitTS, hq]
        rfl
    rw [outputKV, if_neg (by simp)]
    rw [if_neg (by rw [hdig]; exact Bool.false_ne_true)]
  · intro hdig
    rw [outputKV, if_neg (by simp)]
    rw [if_pos hdig]
  · intro hne hd
    have hall : (v.data.all fun c => c.isDigit || isSpaceChar c) = true := by
      rw [List.all_eq_true] at hd ⊢
      intro x hx
      have hx2 := hd x hx
      rw [Bool.or_eq_true] at hx2 ⊢
      rcases hx2 with h | h
      · exact Or.inl h
      · refine Or.inr ?_
        rw [decide_eq_true_iff] at h
        rw [h]
        rfl
    have hemp : v.data.isEmpty = false := by
      cases hv : v.data with
      | nil => exact absurd hv hne
      | cons a l => rfl
    have hdig : isDigitTS v = true := by
      rw [isDigitTS, hemp, hall]
      rfl
    rw [outputKV, if_neg (by simp)]
    rw [if_pos hdig, atoiTS_digit_space v hd]
  · rw [outputKV, if_pos (by simp only [List.length_cons]; omega)]
    rw [outputMulti_eq]

/-- C7 witness: the amended characterization applied to the all-digit
value `"72000"`, the spaced-digits value `"123 456"` (emitted as the
concatenation `123456`), the non-numeric value `"AOD_merge.sh"`, and the
pair `["a", "b"]`. -/
theorem c7_witness :
    (("72000").data ≠ [] ∧ ("72000").data.all Char.isDigit = true ∧
      outputKV "TTL" ["72000"]
        = some ("TTL" ++ " = " ++ toString (digitsToNat ("72000").data : ℤ) ++ ";\n")) ∧
    (("AOD_merge.sh").data.all (fun c => c.isDigit || isSpaceChar c) = false ∧
      outputKV "Executable" ["AOD_merge.sh"]
        = some ("Executable" ++ " = " ++ ("\"" ++ "AOD_merge.sh" ++ "\"") ++ ";\n")) ∧
    (isDigitTS "123 456" = true ∧
      outputKV "TTL" ["123 456"]
        = some ("TTL" ++ " = " ++ toString (atoiTS "123 456") ++ ";\n")) ∧
    (("123 456").data ≠ [] ∧
      ("123 456").data.all (fun c => c.isDigit || c = ' ') = true ∧
      outputKV "TTL" ["123 456"]
        = some ("TTL" ++ " = "
            ++ toString (digitsToNat (("123 456").data.filter (fun c => !(c = ' '))) : ℤ)
            ++ ";\n")) ∧
    outputKV "Packages" ["a", "b"]
      = some ("Packages" ++ " = " ++ "\x7b\n" ++ quotedLines ["a", "b"]
          ++ "\x7d" ++ ";\n") :=
  ⟨⟨by decide, by decide,
      (c7_amended "TTL" "72000" "a" "b" []).1 (by decide) (by decide)⟩,
   ⟨by decide,
      (c7_amended "Executable" "AOD_merge.sh" "a" "b" []).2.1 (Or.inl (by decide))⟩,
   ⟨by decide,
      (c7_amended "TTL" "123 456" "a" "b" []).2.2.1 (by decide)⟩,
   ⟨by decide, by decide,
      (c7_amended "TTL" "123 456" "a" "b" []).2.2.2.1 (by decide) (by decide)⟩,
   (c7_amended "Packages" "v" "a" "b" []).2.2.2.2⟩

/-! ## C8: snapshot-preserving cleanup -/

/-- C8: with snapshots preserved (`cleanSnapshots = false`), `CleanLocal`
unlinks exactly the files whose names lack the `"OCDB_"` marker: every
snapshot file is untouched and every non-snapshot file is removed. -/
theorem c8_theorem (s : Submitter) :
    cleanLocal s false
        = (s.fLocalFileList.filter
            (fun f => !(containsStr f "OCDB_"))).map Effect.unlink ∧
    (∀ f, f ∈ s.fLocalFileList → containsStr f "OCDB_" = true →
      Effect.unlink f ∉ cleanLocal s false) ∧
    (∀ f, f ∈ s.fLocalFileList → containsStr f "OCDB_" = false →
      Effect.unlink f ∈ cleanLocal s false) := by
  have hbase : ∀ l : List String,
      (l.filterMap (fun f =>
        if containsStr f "OCDB_" then none
        else some (Effect.unlink f)))
        = (l.filter (fun f => !(containsStr f "OCDB_"))).map Effect.unlink := by
    intro l
    induction l with
    | nil => rfl
    | cons f rest ih =>
      rw [List.filterMap_cons, List.filter_cons]
      cases hc : containsStr f "OCDB_" with
      | false => simp [hc, ih]
      | true => simp [hc, ih]
  have h1 : cleanLocal s false
      = (s.fLocalFileList.filter
          (fun f => !(containsStr f "OCDB_"))).map Effect.unlink :=
    hbase s.fLocalFileList
  refine ⟨h1, ?_, ?_⟩
  · intro f hf hc
    rw [h1]
    intro hmem
    rw [List.mem_map] at hmem
    obtain ⟨g, hg, hge⟩ := hmem
    injection hge with hge
    subst hge
    rw [List.mem_filter, hc] at hg
    exact absurd hg.2 (by decide)
  · intro f hf hc
    rw [h1, List.mem_map]
    exact ⟨f, List.mem_filter.mpr ⟨hf, by rw [hc]; rfl⟩, rfl⟩

/-- The submitter of the cleanup scenario: one ordinary file and one OCDB
snapshot file in the local file list. -/
def c8Submitter : Submitter :=
  { sampleSubmitter with
    fLocalFileList := ["sim.C", "OCDB/290/OCDB_sim.root"] }

/-- C8 witness: on the two-file fixture, cleanup with snapshots preserved
removes `sim.C` and keeps the snapshot. -/
theorem c8_witness :
    cleanLocal c8Submitter false
        = (c8Submitter.fLocalFileList.filter
            (fun f => !(containsStr f "OCDB_"))).map Effect.unlink ∧
    Effect.unlink "OCDB/290/OCDB_sim.root" ∉ cleanLocal c8Submitter false ∧
    Effect.unlink "sim.C" ∈ cleanLocal c8Submitter false :=
  ⟨(c8_theorem c8Submitter).1,
   (c8_theorem c8Submitter).2.1 "OCDB/290/OCDB_sim.root" (by decide) (by decide),
   (c8_theorem c8Submitter).2.2 "sim.C" (by decide) (by decide)⟩

/-! ## C9: the Bool_t-truncated GetLastStage -/

/-- C9: `GetLastStage` is declared `Bool_t`, so `Merge` only ever
observes 0 or 1; with completed stages `Stage_1/` and `Stage_2/` the
internal counter reaches 2 but the caller sees 1, and the stage gate of
`Merge` tests the requested stage against this truncated value: a
requested stage 3 (which equals rawStage + 1) is rejected without any
submission attempt. -/
theorem c9_theorem :
    (∀ stages gfuel, observedLastStage stages gfuel = 0
        ∨ observedLastStage stages gfuel = 1) ∧
    lastStageRaw [1, 2] 4 = 2 ∧
    observedLastStage [1, 2] 4 = 1 ∧
    (∀ (s : Submitter) (env : Env) (dryRun : Bool) (jdl reply : String)
        (run : ℤ),
      env.stagesFor run = [1, 2] →
      remoteFileExists env (s.fMergedDir ++ "/" ++ toString run
          ++ "/root_archive.zip") = false →
      (mergeStep s env 3 dryRun jdl 4 run reply).1 = none ∧
      (∀ q, Effect.gridCommand q ∉ (mergeStep s env 3 dryRun jdl 4 run reply).2.2)) := by
  refine ⟨?_, by decide, by decide, ?_⟩
  · intro stages gfuel
    rw [observedLastStage]
    split
    · exact Or.inr rfl
    · exact Or.inl rfl
  · intro s env dryRun jdl reply run hst harch
    have hobs : observedLastStage [1, 2] 4 = 1 := by decide
    have hgate : ((3 : ℤ) > 0 && !((3 : ℤ) = 1 + 1) : Bool) = true := by decide
    simp only [mergeStep, harch, hst, hobs, hgate, Bool.false_eq_true, if_false,
      if_true]
    refine ⟨by trivial, ?_⟩
    intro q
    split
    · simp
    · simp

/-! ## C10: the Submit return value -/

/-- The spec-side per-run chunk count: zero for a run whose reference
trigger is unavailable (the run is skipped), otherwise the chunk count of
its target event count. -/
def chunkForRun (s : Submitter) (env : Env) (run : ℤ) : ℤ :=
  if Rat.blt 0 s.fRatioVal then
    match env.triggerValue run with
    | none => 0
    | some v => computeNChunk (nint (qMul s.fRatioVal ((v : ℤ) : ℚ)))
        s.fMaxEventsPerChunk
  else computeNChunk s.fFixedNofEvents s.fMaxEventsPerChunk

theorem submitStep_count (s : Submitter) (env : Env) (d : Bool) (run : ℤ) :
    (submitStep s env d run).1 = chunkForRun s env run := by
  unfold submitStep chunkForRun
  cases hr : Rat.blt 0 s.fRatioVal
  · simp [hr]
  · cases ht : env.triggerValue run <;> simp [hr, ht]

theorem submitLoop_count (s : Submitter) (env : Env) (d : Bool) :
    ∀ runs : List ℤ,
      (submitLoop s env d runs).1 = (runs.map (fun r => chunkForRun s env r)).sum := by
  intro runs
  induction runs with
  | nil => rfl
  | cons run rest ih =>
    simp only [submitLoop, List.map_cons, List.sum_cons]
    rw [submitStep_count, ih]

theorem submitStep_dry_nocmd (s : Submitter) (env : Env) (run : ℤ) :
    (submitStep s env true run).2.2 = [] := by
  unfold submitStep
  cases hr : Rat.blt 0 s.fRatioVal
  · simp [hr]
  · cases ht : env.triggerValue run <;> simp [hr, ht]

theorem submitLoop_dry_nocmd (s : Submitter) (env : Env) :
    ∀ runs : List ℤ, (submitLoop s env true runs).2.2 = [] := by
  intro runs
  induction runs with
  | nil => rfl
  | cons run rest ih =>
    simp only [submitLoop]
    rw [submitStep_dry_nocmd, ih]
    rfl

theorem remoteFileExists_congr (env1 env2 : Env) (h1 : env1.hasGrid = env2.hasGrid)
    (h2 : env1.gridLs = env2.gridLs) (lfn : String) :
    remoteFileExists env1 lfn = remoteFileExists env2 lfn := by
  rw [remoteFileExists, remoteFileExists, h1, h2]

theorem chunkForRun_congr (s : Submitter) (env1 env2 : Env)
    (htv : env1.triggerValue = env2.triggerValue) (run : ℤ) :
    chunkForRun s env1 run = chunkForRun s env2 run := by
  rw [chunkForRun, chunkForRun, htv]

/-- C10: the value `Submit` returns is the sum of the computed chunk
counts over the runs whose trigger-scaler count is available, and it is
independent of the dry-run flag and of every submission-command outcome
(`env.command` is unconstrained between the two environments); in
particular `Submit(kTRUE)` issues no grid command yet returns the same
job count as a real run. -/
theorem c10_theorem (s : Submitter) (env1 env2 : Env) (d1 d2 : Bool)
    (runs : List ℤ) (hsc : s.fScalers = some runs)
    (hg : env1.hasGrid = env2.hasGrid) (hls : env1.gridLs = env2.gridLs)
    (htv : env1.triggerValue = env2.triggerValue) :
    (submit s env1 d1).1 = (submit s env2 d2).1 ∧
    (∀ q, Effect.gridCommand q ∉ (submit s env1 true).2.2) ∧
    (s.fIsValid = true → remoteFileExists env1 runJDLName = true → runs ≠ [] →
      (submit s env1 d1).1 = (runs.map (fun r => chunkForRun s env1 r)).sum) := by
  have hmap : (runs.map (fun r => chunkForRun s env1 r))
      = (runs.map (fun r => chunkForRun s env2 r)) := by
    have : (fun r => chunkForRun s env1 r) = (fun r => chunkForRun s env2 r) := by
      funext r
      exact chunkForRun_congr s env1 env2 htv r
    rw [this]
  refine ⟨?_, ?_, ?_⟩
  · cases hval : s.fIsValid with
    | false => simp [submit, hval]
    | true =>
      rw [submit, submit, hval]
      rw [remoteFileExists_congr env1 env2 hg hls runJDLName]
      cases hre : remoteFileExists env2 runJDLName with
      | false => simp [hre]
      | true =>
        simp only [hre, Bool.not_true, Bool.false_eq_true, if_false, hsc]
        cases hrune : runs.isEmpty with
        | true => simp [hrune]
        | false =>
          simp only [hrune, Bool.false_eq_true, if_false]
          rw [submitLoop_count, submitLoop_count, hmap]
  · intro q
    cases hval : s.fIsValid with
    | false => simp [submit, hval]
    | true =>
      rw [submit, hval]
      cases hre : remoteFileExists env1 runJDLName with
      | false => simp [hre]
      | true =>
        simp only [hre, Bool.not_true, Bool.false_eq_true, if_false, hsc]
        cases hrune : runs.isEmpty with
        | true => simp [hrune]
        | false =>
          simp only [hrune, Bool.false_eq_true, if_false]
          rw [submitLoop_dry_nocmd]
          simp
  · intro hval hre hne
    have hrune : runs.isEmpty = false := by
      cases runs with
      | nil => exact absurd rfl hne
      | cons a l => rfl
    rw [submit, hval]
    simp only [hre, hsc, hrune, Bool.not_true, Bool.false_eq_true, if_false]
    rw [submitLoop_count]

/-- C9 witness: the truncation statement applied to a run whose output
directory holds `Stage_1/` and `Stage_2/`, with an intermediate merge at
requested stage 3. -/
theorem c9_witness :
    ({ sampleEnv with stagesFor := fun _ => [1, 2] } : Env).stagesFor 5 = [1, 2] ∧
    remoteFileExists { sampleEnv with stagesFor := fun _ => [1, 2] }
        (sampleSubmitter.fMergedDir ++ "/" ++ toString (5 : ℤ)
          ++ "/root_archive.zip") = false ∧
    ((mergeStep sampleSubmitter { sampleEnv with stagesFor := fun _ => [1, 2] }
        3 false "AOD_merge.jdl" 4 5 "").1 = none ∧
      (∀ q, Effect.gridCommand q
          ∉ (mergeStep sampleSubmitter { sampleEnv with stagesFor := fun _ => [1, 2] }
              3 false "AOD_merge.jdl" 4 5 "").2.2)) :=
  ⟨rfl, rfl,
    c9_theorem.2.2.2 sampleSubmitter { sampleEnv with stagesFor := fun _ => [1, 2] }
      false "AOD_merge.jdl" "" 5 rfl rfl⟩

/-- C10 witness: on the end-to-end fixture, the dry and real job counts
agree, the dry run issues no submission command, and the count is the sum
of the per-run chunk counts. -/
theorem c10_witness :
    (submit c6Submitter c6Env false).1 = (submit c6Submitter c6Env true).1 ∧
    Effect.gridCommand "submit JDL 1000 2 500"
        ∉ (submit c6Submitter c6Env true).2.2 ∧
    (submit c6Submitter c6Env false).1
      = (([1000, 1001] : List ℤ).map
          (fun r => chunkForRun c6Submitter c6Env r)).sum :=
  ⟨(c10_theorem c6Submitter c6Env c6Env false true [1000, 1001] rfl rfl rfl rfl).1,
   (c10_theorem c6Submitter c6Env c6Env false true [1000, 1001] rfl rfl rfl rfl).2.1 _,
   (c10_theorem c6Submitter c6Env c6Env false true [1000, 1001] rfl rfl rfl rfl).2.2
     rfl rfl (by decide)⟩
